import Mathlib

/-!
# Verification of the gdrivesync one-way local-to-remote synchronizer

This file gives a shallow embedding of `main.go` of the `gdrivesync`
repository and proves properties of its sync logic.

Modelling conventions:

* Filesystem paths (`path/filepath` strings) are modelled as their lists of
  components (`Path := List String`); joining with the OS separator becomes
  list append, `filepath.Rel root path` becomes stripping the `root` prefix,
  and `filepath.Base` becomes the last component.
* The local filesystem under the sync root is a finite tree `FSNode`
  (directories with named children, regular files).  `filepath.Walk` is able
  to fail at any visited path (lstat / readdir errors); this is modelled by
  the oracle `Env.statErr`.
* The remote Drive state is a list of remote file records.  The Drive API
  calls made by the program (`Files.List` with a name/parent/trashed query,
  `Files.Create`, `Files.Update`) are recorded in an operation trace
  `DriveOp`, and their possible failures come from the oracles in `Env`.
* `fmt.Printf` lines and `log.Printf` lines are recorded structurally
  (one constructor per format string of the source).
* `log.Fatalf` (exit with nonzero status) is modelled by `ExitStatus.fatal`.
-/

namespace GDriveSync

/-- A filesystem path, modelled as its list of components. -/
abbrev Path := List String

/-- `filepath.Base`: the last component of a path; `"."` for the empty path
(Go's `Base("")` is `"."`). -/
def base (p : Path) : String := p.getLastD "."

/-- A node of the local filesystem tree: a regular file or a directory with
an ordered list of children. -/
inductive FSNode where
  | file (name : String)
  | dir (name : String) (children : List FSNode)
deriving Repr

/-- The name of a filesystem node. -/
def FSNode.name : FSNode → String
  | .file n => n
  | .dir n _ => n

/-- The Go struct `File` of `main.go`: `Name` is the path relative to the
sync root (`filepath.Rel folderPath path`), `Path` the full path. -/
structure LocalFile where
  name : Path
  path : Path
deriving DecidableEq, Repr

/-- A remote file record as the Drive API exposes it to this program:
its id, name, parent folder ids, and trashed flag. -/
structure RemoteFile where
  id : String
  name : String
  parents : List String
  trashed : Bool
deriving DecidableEq, Repr

/-- The remote Drive state: the stored files, plus a counter from which
ids for newly created files are drawn. -/
structure Drive where
  files : List RemoteFile
  nextId : Nat
deriving DecidableEq, Repr

/-- The failure oracles of a run: which filesystem and remote API calls
fail.  `statErr` drives `filepath.Walk` errors (keyed by the visited full
path), `openErr` drives `os.Open` failures, and the remaining three drive
failures of the `Files.List`/`Files.Create`/`Files.Update` calls. -/
structure Env where
  statErr : Path → Bool
  openErr : Path → Bool
  listErr : String → Bool
  createErr : String → Bool
  updateErr : String → Bool

mutual
/-- The directory walk of `listLocalFiles`: `filepath.Walk` visits a node;
a filesystem error at that node is returned by the walk function and aborts
the whole walk; a non-directory node is appended to the result with its
relative and full paths; a directory's children are then walked in order. -/
def walkNode (env : Env) (root : Path) (rel : Path) : FSNode → Except String (List LocalFile)
  | .file _ =>
    if env.statErr (root ++ rel) then .error "walk error"
    else .ok [⟨rel, root ++ rel⟩]
  | .dir _ cs =>
    if env.statErr (root ++ rel) then .error "walk error"
    else walkChildren env root rel cs

def walkChildren (env : Env) (root : Path) (rel : Path) : List FSNode → Except String (List LocalFile)
  | [] => .ok []
  | c :: cs => do
    let l ← walkNode env root (rel ++ [c.name]) c
    let r ← walkChildren env root rel cs
    pure (l ++ r)
end

/-- `listLocalFiles` of `main.go`: walk the tree rooted at the sync folder
and collect every non-directory entry. -/
def listLocalFiles (env : Env) (root : Path) (t : FSNode) : Except String (List LocalFile) :=
  walkNode env root [] t

mutual
/-- Specification-side predicate: `p` is the relative path of a regular
file in the tree `t`. -/
def isRegFile : FSNode → Path → Bool
  | .file _, [] => true
  | .dir _ cs, n :: p => isRegFileIn cs n p
  | _, _ => false

def isRegFileIn : List FSNode → String → Path → Bool
  | [], _, _ => false
  | c :: cs, n, p => (c.name == n && isRegFile c p) || isRegFileIn cs n p
end

/-- Well-formedness of a filesystem tree: at every directory the children
carry pairwise distinct names (as a real filesystem guarantees). -/
def namesNodup : List FSNode → Bool
  | [] => true
  | c :: cs => (!(cs.map FSNode.name).contains c.name) && namesNodup cs

mutual
def nodeWF : FSNode → Bool
  | .file _ => true
  | .dir _ cs => namesNodup cs && childrenWF cs

def childrenWF : List FSNode → Bool
  | [] => true
  | c :: cs => nodeWF c && childrenWF cs
end

/-! ## The remote side: Drive operations, prints and logs -/

/-- The remote API operations this program issues: `Files.List` with a
`name='…' and '…' in parents and trashed=false` query, `Files.Create` of a
named file under a parent, and `Files.Update` of a file id. -/
inductive DriveOp where
  | listFiles (name parentFolderID : String)
  | create (name parentFolderID : String)
  | update (fileId : String)
deriving DecidableEq, Repr

/-- The `fmt.Printf` lines of the program, one constructor per format
string of the source. -/
inductive PrintMsg where
  | authPrompt
  | updating (name : String)
  | uploading (name : String)
  | syncComplete
deriving DecidableEq, Repr

/-- The `log.Printf` lines of the program, one constructor per format
string of the source. -/
inductive LogMsg where
  | listCheckError
  | syncError (name : Path)
deriving DecidableEq, Repr

/-- Does a remote file match the query
`name='fileName' and 'parentFolderID' in parents and trashed=false`? -/
def matchesQuery (fileName parentFolderID : String) (f : RemoteFile) : Bool :=
  f.name == fileName && f.parents.contains parentFolderID && !f.trashed

/-- Result of `getDriveFileID`: the id found (`""` when none), the remote
call issued, and any lines logged. -/
structure QueryResult where
  fileId : String
  ops : List DriveOp
  logs : List LogMsg

/-- `getDriveFileID` of `main.go`: issue one `Files.List` call with the
name/parent/trashed query; on error log and return `""`; otherwise return
the id of the first file of the response, or `""` when there is none. -/
def getDriveFileID (env : Env) (d : Drive) (fileName parentFolderID : String) : QueryResult :=
  if env.listErr fileName then
    ⟨"", [.listFiles fileName parentFolderID], [.listCheckError]⟩
  else
    match d.files.filter (matchesQuery fileName parentFolderID) with
    | [] => ⟨"", [.listFiles fileName parentFolderID], []⟩
    | f :: _ => ⟨f.id, [.listFiles fileName parentFolderID], []⟩

/-- Errors `uploadToGoogleDrive` can return: the `os.Open` failure, or an
error from the Create/Update remote call. -/
inductive UploadErr where
  | openFailed
  | apiError
deriving DecidableEq, Repr

/-- Result of one `uploadToGoogleDrive` call: the remote state afterwards,
the remote calls issued, the lines printed and logged, and the returned
error, if any. -/
structure UploadResult where
  drive : Drive
  ops : List DriveOp
  prints : List PrintMsg
  logs : List LogMsg
  result : Except UploadErr Unit

/-- The id the Drive assigns to the `n`-th created file. -/
def freshId (n : Nat) : String := "gdid" ++ toString n

/-- `uploadToGoogleDrive` of `main.go`: open the local file (returning its
error on failure); take the base name of the local path; if
`getDriveFileID` finds an existing id, print `Updating …` and call
`Files.Update` on that id; otherwise print `Uploading …` and call
`Files.Create` with that name under the destination folder. -/
def uploadToGoogleDrive (env : Env) (d : Drive) (localFilePath : Path) (parentFolderID : String) : UploadResult :=
  if env.openErr localFilePath then ⟨d, [], [], [], .error .openFailed⟩
  else
    let fileName := base localFilePath
    let q := getDriveFileID env d fileName parentFolderID
    if q.fileId ≠ "" then
      ⟨d, q.ops ++ [.update q.fileId], [.updating fileName], q.logs,
        if env.updateErr q.fileId then .error .apiError else .ok ()⟩
    else if env.createErr fileName then
      ⟨d, q.ops ++ [.create fileName parentFolderID], [.uploading fileName], q.logs,
        .error .apiError⟩
    else
      ⟨{ files := d.files ++ [⟨freshId d.nextId, fileName, [parentFolderID], false⟩],
         nextId := d.nextId + 1 },
        q.ops ++ [.create fileName parentFolderID], [.uploading fileName], q.logs, .ok ()⟩

/-- Accumulated observable behaviour of the per-file upload loop. -/
structure Trace where
  drive : Drive
  ops : List DriveOp
  prints : List PrintMsg
  logs : List LogMsg

/-- The per-file loop of `syncFolder`.  The Go code launches one goroutine
per file and joins them with a wait group; the goroutines share no local
state (each logs its own error and drops it), so the loop is modelled by
processing the files in order, threading the remote state: an error from
one file's upload is logged (`Error syncing …`) and the loop continues. -/
def syncFolderLoop (env : Env) (parentFolderID : String) : Drive → List LocalFile → Trace
  | d, [] => ⟨d, [], [], []⟩
  | d, f :: fs =>
    let r := uploadToGoogleDrive env d f.path parentFolderID
    let errLog : List LogMsg :=
      match r.result with
      | .error _ => [.syncError f.name]
      | .ok _ => []
    let rest := syncFolderLoop env parentFolderID r.drive fs
    ⟨rest.drive, r.ops ++ rest.ops, r.prints ++ rest.prints, r.logs ++ errLog ++ rest.logs⟩

/-- Result of `syncFolder`: its observable trace plus its returned error. -/
structure SyncResult where
  drive : Drive
  ops : List DriveOp
  prints : List PrintMsg
  logs : List LogMsg
  result : Except String Unit

/-- `syncFolder` of `main.go`: list the local files (returning the error
when the walk fails), then run the per-file uploads and return `nil`. -/
def syncFolder (env : Env) (d : Drive) (root : Path) (t : FSNode) (parentFolderID : String) : SyncResult :=
  match listLocalFiles env root t with
  | .error e => ⟨d, [], [], [], .error e⟩
  | .ok files =>
    let tr := syncFolderLoop env parentFolderID d files
    ⟨tr.drive, tr.ops, tr.prints, tr.logs, .ok ()⟩

/-! ## The OAuth token file -/

/-- A JSON value, as `encoding/json` produces and consumes it.  Numbers
are modelled as integers (the only numeric field of the token is the
`int64` `expires_in`); a `time.Time` marshals as an RFC3339 timestamp
string, which we model by its integer wall-clock reading (`num`), since
the textual rendering is the `time` package's and is injective. -/
inductive Json where
  | str (s : String)
  | num (n : Int)
  | bool (b : Bool)
  | arr (elems : List Json)
  | obj (fields : List (String × Json))
  | null

/-- The serializable fields of `oauth2.Token`: `AccessToken`
(`access_token`), `TokenType` (`token_type,omitempty`), `RefreshToken`
(`refresh_token,omitempty`), `Expiry` (`expiry`, a `time.Time` modelled by
its wall-clock reading) and `ExpiresIn` (`expires_in,omitempty`). -/
structure Token where
  accessToken : String
  tokenType : String
  refreshToken : String
  expiry : Int
  expiresIn : Int
deriving DecidableEq, Repr

/-- The zero `oauth2.Token{}` that `tokenFromFile` unmarshals into. -/
def zeroToken : Token := ⟨"", "", "", 0, 0⟩

/-- `json.Marshal` of an `oauth2.Token`: an object with the tagged fields
in declaration order, the `omitempty` ones present only when non-zero
(`Expiry` is a struct, which `omitempty` never drops). -/
def encodeToken (t : Token) : Json :=
  .obj ([("access_token", .str t.accessToken)]
    ++ (if t.tokenType = "" then [] else [("token_type", .str t.tokenType)])
    ++ (if t.refreshToken = "" then [] else [("refresh_token", .str t.refreshToken)])
    ++ [("expiry", .num t.expiry)]
    ++ (if t.expiresIn = 0 then [] else [("expires_in", .num t.expiresIn)]))

/-- Errors of `tokenFromFile`: the `os.ReadFile` error or a
`json.Unmarshal` error. -/
inductive TokErr where
  | readErr
  | unmarshalErr
deriving DecidableEq, Repr

/-- `json.Unmarshal` of one object member into the token being built:
known keys require a value of the field's type (JSON `null` is a no-op),
unknown keys are ignored. -/
def applyField (t : Token) (kv : String × Json) : Except TokErr Token :=
  match kv with
  | ("access_token", .str s) => .ok { t with accessToken := s }
  | ("access_token", .null) => .ok t
  | ("access_token", _) => .error .unmarshalErr
  | ("token_type", .str s) => .ok { t with tokenType := s }
  | ("token_type", .null) => .ok t
  | ("token_type", _) => .error .unmarshalErr
  | ("refresh_token", .str s) => .ok { t with refreshToken := s }
  | ("refresh_token", .null) => .ok t
  | ("refresh_token", _) => .error .unmarshalErr
  | ("expiry", .num n) => .ok { t with expiry := n }
  | ("expiry", .null) => .ok t
  | ("expiry", _) => .error .unmarshalErr
  | ("expires_in", .num n) => .ok { t with expiresIn := n }
  | ("expires_in", .null) => .ok t
  | ("expires_in", _) => .error .unmarshalErr
  | (_, _) => .ok t

/-- Unmarshal the members of a JSON object into a token, left to right.
(Go's decoder keeps going after a type error and reports the first one at
the end; we stop at the first one.  Callers only distinguish success from
failure, so the difference is unobservable in this program.) -/
def applyFields : Token → List (String × Json) → Except TokErr Token
  | t, [] => .ok t
  | t, kv :: rest =>
    match applyField t kv with
    | .ok t2 => applyFields t2 rest
    | .error e => .error e

/-- `json.Unmarshal` of a byte slice (already parsed to its JSON value)
into `&oauth2.Token{}`: an object fills the fields member by member, JSON
`null` leaves the struct untouched, anything else is a type error. -/
def decodeToken : Json → Except TokErr Token
  | .obj fields => applyFields zeroToken fields
  | .null => .ok zeroToken
  | _ => .error .unmarshalErr

/-- `tokenFromFile` of `main.go`: read `token.json` (its content modelled
as the parsed JSON value, `none` when `os.ReadFile` fails) and unmarshal
it. -/
def tokenFromFile (content : Option Json) : Except TokErr Token :=
  match content with
  | none => .error .readErr
  | some j => decodeToken j

/-- `saveToken` of `main.go`: marshal the token and write it to
`token.json`; the resulting file content. -/
def saveToken (t : Token) : Option Json := some (encodeToken t)

/-- Did the startup read plus unmarshal of the token file succeed? -/
def readOk (content : Option Json) : Bool :=
  match tokenFromFile content with
  | .ok _ => true
  | .error _ => false

/-! ## getClient and main -/

/-- Operations on the token file. -/
inductive FileOp where
  | readToken
  | writeToken (content : Json)

/-- Is a token file operation a read? -/
def isReadOp : FileOp → Bool
  | .readToken => true
  | .writeToken _ => false

/-- Is a token file operation a write? -/
def isWriteOp : FileOp → Bool
  | .readToken => false
  | .writeToken _ => true

/-- The fatal exits of the program (`log.Fatal*`), one constructor per
call site reachable in the model. -/
inductive FatalMsg where
  | missingCreds
  | exchangeFailed
  | serviceFailed
  | syncFailed
deriving DecidableEq, Repr

/-- How the process ends: normally, or by `log.Fatal*` with a nonzero
status. -/
inductive ExitStatus where
  | ok
  | fatal (m : FatalMsg)
deriving DecidableEq, Repr

/-- The whole outside world a run interacts with: the environment
variables, the token file's current content, the outcome of the
interactive OAuth flow (`none` when the code exchange fails, in which case
`getTokenFromWeb` calls `log.Fatalf`), whether `drive.NewService`
succeeds, the remote Drive state, the local tree at the sync root, and
the failure oracles. -/
structure World where
  envVars : String → String
  tokenContent : Option Json
  webToken : Option Token
  serviceOk : Bool
  drive : Drive
  tree : FSNode
  env : Env

/-- Result of `getClient`: the token file operations performed, the lines
printed, the token obtained (`none` when the interactive flow died
fatally), and the token file content afterwards. -/
structure ClientResult where
  fileOps : List FileOp
  prints : List PrintMsg
  token : Option Token
  newContent : Option Json

/-- `getClient` of `main.go`: read the token file; on success use that
token and leave the file alone.  Otherwise run `getTokenFromWeb` (which
prints the authorization prompt and either returns the exchanged token or
exits fatally) and save the obtained token to the file. -/
def getClient (w : World) : ClientResult :=
  match tokenFromFile w.tokenContent with
  | .ok tok => ⟨[.readToken], [], some tok, w.tokenContent⟩
  | .error _ =>
    match w.webToken with
    | none => ⟨[.readToken], [.authPrompt], none, w.tokenContent⟩
    | some tok => ⟨[.readToken, .writeToken (encodeToken tok)], [.authPrompt],
        some tok, saveToken tok⟩

/-- The hard-coded sync source `C:\testsync\` of the `const` block,
as a component list. -/
def localFolderPath : Path := ["C:", "testsync"]

/-- The hard-coded destination folder id of the `const` block. -/
def gDriveFolderID : String := "folder_identifier"

/-- Everything observable about one run of `main`. -/
structure MainResult where
  fileOps : List FileOp
  ops : List DriveOp
  prints : List PrintMsg
  logs : List LogMsg
  tokenFile : Option Json
  exit : ExitStatus

/-- `main` of `main.go`: read `CLIENT_ID` and `CLIENT_SECRET` from the
environment and exit fatally when either is empty; obtain the client
(exiting fatally when the token exchange fails); build the Drive service
(exiting fatally on failure); run `syncFolder` on the hard-coded constants
`localFolderPath` and `gDriveFolderID` (exiting fatally when it returns an
error); finally print `Sync complete.`. -/
def mainRun (w : World) : MainResult :=
  if w.envVars "CLIENT_ID" = "" ∨ w.envVars "CLIENT_SECRET" = "" then
    ⟨[], [], [], [], w.tokenContent, .fatal .missingCreds⟩
  else
    let c := getClient w
    match c.token with
    | none => ⟨c.fileOps, [], c.prints, [], c.newContent, .fatal .exchangeFailed⟩
    | some _ =>
      if w.serviceOk = false then
        ⟨c.fileOps, [], c.prints, [], c.newContent, .fatal .serviceFailed⟩
      else
        let s := syncFolder w.env w.drive localFolderPath w.tree gDriveFolderID
        match s.result with
        | .error _ =>
          ⟨c.fileOps, s.ops, c.prints ++ s.prints, s.logs, c.newContent, .fatal .syncFailed⟩
        | .ok _ =>
          ⟨c.fileOps, s.ops, c.prints ++ s.prints ++ [.syncComplete], s.logs, c.newContent, .ok⟩

/-! ## Trace classifiers -/

/-- Is a remote call a `Files.List`? -/
def isListOp : DriveOp → Bool
  | .listFiles _ _ => true
  | _ => false

/-- Is a remote call a `Files.Create`? -/
def isCreateOp : DriveOp → Bool
  | .create _ _ => true
  | _ => false

/-- Is a remote call a `Files.Update`? -/
def isUpdateOp : DriveOp → Bool
  | .update _ => true
  | _ => false

/-- Is a printed line one of the per-file `Updating …`/`Uploading …`
lines? -/
def isUpLine : PrintMsg → Bool
  | .updating _ => true
  | .uploading _ => true
  | _ => false

/-! ## The goroutine / WaitGroup discipline of syncFolder

`syncFolder` runs the loop `wg.Add(1); go upload…` once per local file,
then blocks in `wg.Wait()`, and `main` prints `Sync complete.` only after
`syncFolder` has returned.  The interleaving of the `n` upload goroutines
with the launching loop and the final print is modelled by a step
relation: `done` holds one entry per goroutine launched so far, the
wait-group counter is incremented at each `wg.Add(1)` and decremented by
each goroutine's deferred `wg.Done()`, and the print step is enabled only
once the loop has finished launching and `wg.Wait()` has seen the counter
reach zero. -/

/-- Scheduler-visible state of `syncFolder`'s fan-out plus `main`'s final
print. -/
structure CState where
  done : List Bool
  counter : Nat
  printed : Bool
deriving DecidableEq, Repr

/-- Initial state: no goroutine launched, counter zero, nothing printed. -/
def initCState : CState := ⟨[], 0, false⟩

/-- One scheduler step of a run with `n` files: launch the next goroutine
(`wg.Add(1); go …`), let a running goroutine finish (its deferred
`wg.Done()`), or — once all `n` are launched and `wg.Wait()` has returned
because the counter is zero — print `Sync complete.`. -/
inductive CStep (n : Nat) : CState → CState → Prop
  | launch (s : CState) (h : s.done.length < n) :
      CStep n s ⟨s.done ++ [false], s.counter + 1, s.printed⟩
  | finish (s : CState) (i : Nat) (h : s.done[i]? = some false) :
      CStep n s ⟨s.done.set i true, s.counter - 1, s.printed⟩
  | print (s : CState) (hl : s.done.length = n) (hc : s.counter = 0) :
      CStep n s ⟨s.done, s.counter, true⟩

/-! ## C5: the token file round-trips -/

/-- C5: serializing any OAuth token with `saveToken` and deserializing the
written content with `tokenFromFile` yields the original token: access
token, token type, refresh token, expiry and expires-in are all
preserved. -/
theorem saveToken_tokenFromFile_roundtrip (t : Token) :
    tokenFromFile (saveToken t) = .ok t := by
  obtain ⟨a, ty, r, e, ei⟩ := t
  by_cases hty : ty = "" <;> by_cases hr : r = "" <;> by_cases hei : ei = 0 <;>
    simp [saveToken, encodeToken, tokenFromFile, decodeToken, applyFields, applyField,
      zeroToken, hty, hr, hei]

/-! ## C1: per-file create-vs-update -/

/-- C1: for a local file the sync processes (its `os.Open` succeeds) whose
existence query succeeds, `uploadToGoogleDrive` invokes exactly one of the
two mutating remote operations: `Files.Update` on an existing match's id
when a non-trashed remote file of the same base name exists in the
destination folder, and `Files.Create` of that name in that folder when
none does.  (Drive ids are nonempty, which the code's `!= ""` sentinel
relies on.) -/
theorem upload_creates_or_updates (env : Env) (d : Drive) (p : Path) (folder : String)
    (hopen : env.openErr p = false)
    (hlist : env.listErr (base p) = false)
    (hids : ∀ f ∈ d.files, f.id ≠ "") :
    ((uploadToGoogleDrive env d p folder).ops.countP isUpdateOp)
      + ((uploadToGoogleDrive env d p folder).ops.countP isCreateOp) = 1
    ∧ ((∃ f ∈ d.files, matchesQuery (base p) folder f = true) →
        ∃ f ∈ d.files, matchesQuery (base p) folder f = true ∧
          (uploadToGoogleDrive env d p folder).ops.countP isUpdateOp = 1 ∧
          (uploadToGoogleDrive env d p folder).ops.countP isCreateOp = 0 ∧
          DriveOp.update f.id ∈ (uploadToGoogleDrive env d p folder).ops)
    ∧ ((∀ f ∈ d.files, matchesQuery (base p) folder f = false) →
          (uploadToGoogleDrive env d p folder).ops.countP isCreateOp = 1 ∧
          (uploadToGoogleDrive env d p folder).ops.countP isUpdateOp = 0 ∧
          DriveOp.create (base p) folder ∈ (uploadToGoogleDrive env d p folder).ops) := by
  cases hf : d.files.filter (matchesQuery (base p) folder) with
  | nil =>
    have hno : ∀ f ∈ d.files, matchesQuery (base p) folder f = false := by
      intro f hfmem
      have := List.filter_eq_nil_iff.mp hf f hfmem
      simpa using this
    have hops : (uploadToGoogleDrive env d p folder).ops
        = [.listFiles (base p) folder, .create (base p) folder] := by
      cases hce : env.createErr (base p) <;>
        simp [uploadToGoogleDrive, getDriveFileID, hopen, hlist, hf, hce]
    refine ⟨?_, ?_, ?_⟩
    · rw [hops]; simp [isUpdateOp, isCreateOp]
    · rintro ⟨f, hfmem, hfmatch⟩
      rw [hno f hfmem] at hfmatch
      exact absurd hfmatch (by simp)
    · intro _
      rw [hops]
      refine ⟨by simp [isCreateOp, isUpdateOp], by simp [isCreateOp, isUpdateOp], by simp⟩
  | cons f rest =>
    have hfin : f ∈ d.files.filter (matchesQuery (base p) folder) := by
      rw [hf]; exact List.mem_cons_self _ _
    have hfmem : f ∈ d.files := (List.mem_filter.mp hfin).1
    have hfmatch : matchesQuery (base p) folder f = true := (List.mem_filter.mp hfin).2
    have hid : f.id ≠ "" := hids f hfmem
    have hops : (uploadToGoogleDrive env d p folder).ops
        = [.listFiles (base p) folder, .update f.id] := by
      simp [uploadToGoogleDrive, getDriveFileID, hopen, hlist, hf, hid]
    refine ⟨?_, ?_, ?_⟩
    · rw [hops]; simp [isUpdateOp, isCreateOp]
    · intro _
      exact ⟨f, hfmem, hfmatch, by rw [hops]; simp [isUpdateOp],
        by rw [hops]; simp [isUpdateOp, isCreateOp], by rw [hops]; simp⟩
    · intro hall
      rw [hall f hfmem] at hfmatch
      exact absurd hfmatch (by simp)

/-- A run environment in which no filesystem or remote call fails. -/
def cleanEnv : Env := ⟨fun _ => false, fun _ => false, fun _ => false, fun _ => false, fun _ => false⟩

/-- A concrete remote state holding one live `x.txt` in the destination
folder. -/
def driveC1 : Drive := ⟨[⟨"gdid0", "x.txt", ["folder_identifier"], false⟩], 1⟩

/-- Witness for C1 at a concrete input: the hypotheses hold and the
conclusion follows for a local `C:\testsync\x.txt` against a remote state
that already holds `x.txt`. -/
theorem upload_creates_or_updates_witness :
    (cleanEnv.openErr ["C:", "testsync", "x.txt"] = false
      ∧ cleanEnv.listErr (base ["C:", "testsync", "x.txt"]) = false
      ∧ ∀ f ∈ driveC1.files, f.id ≠ "")
    ∧ (((uploadToGoogleDrive cleanEnv driveC1 ["C:", "testsync", "x.txt"] "folder_identifier").ops.countP isUpdateOp)
        + ((uploadToGoogleDrive cleanEnv driveC1 ["C:", "testsync", "x.txt"] "folder_identifier").ops.countP isCreateOp) = 1
      ∧ ((∃ f ∈ driveC1.files, matchesQuery (base ["C:", "testsync", "x.txt"]) "folder_identifier" f = true) →
          ∃ f ∈ driveC1.files, matchesQuery (base ["C:", "testsync", "x.txt"]) "folder_identifier" f = true ∧
            (uploadToGoogleDrive cleanEnv driveC1 ["C:", "testsync", "x.txt"] "folder_identifier").ops.countP isUpdateOp = 1 ∧
            (uploadToGoogleDrive cleanEnv driveC1 ["C:", "testsync", "x.txt"] "folder_identifier").ops.countP isCreateOp = 0 ∧
            DriveOp.update f.id ∈ (uploadToGoogleDrive cleanEnv driveC1 ["C:", "testsync", "x.txt"] "folder_identifier").ops)
      ∧ ((∀ f ∈ driveC1.files, matchesQuery (base ["C:", "testsync", "x.txt"]) "folder_identifier" f = false) →
            (uploadToGoogleDrive cleanEnv driveC1 ["C:", "testsync", "x.txt"] "folder_identifier").ops.countP isCreateOp = 1 ∧
            (uploadToGoogleDrive cleanEnv driveC1 ["C:", "testsync", "x.txt"] "folder_identifier").ops.countP isUpdateOp = 0 ∧
            DriveOp.create (base ["C:", "testsync", "x.txt"]) "folder_identifier" ∈ (uploadToGoogleDrive cleanEnv driveC1 ["C:", "testsync", "x.txt"] "folder_identifier").ops)) :=
  ⟨⟨rfl, rfl, by decide⟩,
    upload_creates_or_updates cleanEnv driveC1 ["C:", "testsync", "x.txt"] "folder_identifier"
      rfl rfl (by decide)⟩

/-! ## Counting lemmas for the upload loop -/

/-- `getDriveFileID` issues exactly its one `Files.List` call. -/
theorem getDriveFileID_ops (env : Env) (d : Drive) (n folder : String) :
    (getDriveFileID env d n folder).ops = [.listFiles n folder] := by
  unfold getDriveFileID
  split
  · rfl
  · split <;> rfl

/-- One `uploadToGoogleDrive` call issues exactly one `Files.List` call
and prints exactly one per-file line when the local open succeeds, and
does neither — returning the open error — when it fails. -/
theorem upload_counts (env : Env) (d : Drive) (p : Path) (folder : String) :
    (uploadToGoogleDrive env d p folder).ops.countP isListOp
        = (if env.openErr p then 0 else 1)
    ∧ (uploadToGoogleDrive env d p folder).prints.countP isUpLine
        = (if env.openErr p then 0 else 1)
    ∧ (env.openErr p = true →
        (uploadToGoogleDrive env d p folder).result = .error .openFailed) := by
  cases hop : env.openErr p with
  | true => simp [uploadToGoogleDrive, hop]
  | false =>
    cases hle : env.listErr (base p) with
    | true =>
      cases hce : env.createErr (base p) <;>
        simp [uploadToGoogleDrive, getDriveFileID, hop, hle, hce, isListOp, isUpLine]
    | false =>
      cases hf : d.files.filter (matchesQuery (base p) folder) with
      | nil =>
        cases hce : env.createErr (base p) <;>
          simp [uploadToGoogleDrive, getDriveFileID, hop, hle, hf, hce, isListOp, isUpLine]
      | cons f rest =>
        by_cases hid : f.id = ""
        · cases hce : env.createErr (base p) <;>
            simp [uploadToGoogleDrive, getDriveFileID, hop, hle, hf, hid, hce, isListOp, isUpLine]
        · simp [uploadToGoogleDrive, getDriveFileID, hop, hle, hf, hid, isListOp, isUpLine]

/-- The per-file loop never stops: whatever per-file failures the
environment injects, every file whose open succeeds reaches its own
remote `Files.List` call and prints its per-file line, and every file
whose open fails has its error logged. -/
theorem syncFolderLoop_counts (env : Env) (folder : String) (files : List LocalFile) :
    ∀ d : Drive,
      (syncFolderLoop env folder d files).ops.countP isListOp
          = (files.filter (fun f => !env.openErr f.path)).length
      ∧ (syncFolderLoop env folder d files).prints.countP isUpLine
          = (files.filter (fun f => !env.openErr f.path)).length
      ∧ (∀ f ∈ files, env.openErr f.path = true →
          LogMsg.syncError f.name ∈ (syncFolderLoop env folder d files).logs) := by
  induction files with
  | nil => intro d; simp [syncFolderLoop]
  | cons f fs ih =>
    intro d
    obtain ⟨h1, h2, h3⟩ := upload_counts env d f.path folder
    obtain ⟨ih1, ih2, ih3⟩ := ih (uploadToGoogleDrive env d f.path folder).drive
    refine ⟨?_, ?_, ?_⟩
    · cases hop : env.openErr f.path <;>
        simp [syncFolderLoop, List.countP_append, h1, ih1, hop, List.filter_cons, Nat.add_comm]
    · cases hop : env.openErr f.path <;>
        simp [syncFolderLoop, List.countP_append, h2, ih2, hop, List.filter_cons, Nat.add_comm]
    · intro g hg hgopen
      rcases List.mem_cons.mp hg with hg | hg
      · subst hg
        have := h3 hgopen
        simp [syncFolderLoop, this]
      · have := ih3 g hg hgopen
        simp [syncFolderLoop, this]

/-- Any failing per-file upload is logged: if the upload of the `i`-th
file — run in the drive state the loop threads to it, which is the loop's
state after the first `i` files — returns any error (an `os.Open` failure
or a failed `Files.Create`/`Files.Update` call), then the loop logs that
file's `Error syncing …` line. -/
theorem syncFolderLoop_logs_failed (env : Env) (folder : String) :
    ∀ (files : List LocalFile) (d : Drive) (i : Nat) (hi : i < files.length),
      (uploadToGoogleDrive env (syncFolderLoop env folder d (files.take i)).drive
          (files.get ⟨i, hi⟩).path folder).result ≠ .ok ()
      → LogMsg.syncError (files.get ⟨i, hi⟩).name
          ∈ (syncFolderLoop env folder d files).logs := by
  intro files
  induction files with
  | nil =>
    intro d i hi
    simp at hi
  | cons f fs ih =>
    intro d i hi hfail
    cases i with
    | zero =>
      have hd0 : (syncFolderLoop env folder d ((f :: fs).take 0)).drive = d := rfl
      rw [hd0] at hfail
      cases hres : (uploadToGoogleDrive env d f.path folder).result with
      | ok u =>
        cases u
        exact absurd hres hfail
      | error e =>
        simp [syncFolderLoop, hres]
    | succ j =>
      have hj : j < fs.length := by
        simp at hi
        omega
      have hd : (syncFolderLoop env folder d ((f :: fs).take (j + 1))).drive
          = (syncFolderLoop env folder (uploadToGoogleDrive env d f.path folder).drive
              (fs.take j)).drive := by
        simp [List.take_succ_cons, syncFolderLoop]
      rw [hd] at hfail
      have hmem := ih (uploadToGoogleDrive env d f.path folder).drive j hj hfail
      simp only [syncFolderLoop]
      exact List.mem_append.mpr (Or.inr hmem)

/-! ## C3: per-file errors are logged and do not stop the batch -/

/-- C3: once the local listing succeeds, `syncFolder` returns `nil` no
matter which per-file failures occur; every file whose open succeeds still
reaches its own remote existence query (so no file's failure stops the
others); every file whose open fails has an `Error syncing …` line logged;
and, in general, every file whose upload returns an error — from `os.Open`
or from the `Files.Create`/`Files.Update` call, evaluated in the drive
state its upload actually runs in — has its `Error syncing …` line
logged. -/
theorem syncFolder_continues_on_errors (env : Env) (d : Drive) (root : Path) (t : FSNode)
    (folder : String) (files : List LocalFile)
    (h : listLocalFiles env root t = .ok files) :
    (syncFolder env d root t folder).result = .ok ()
    ∧ (syncFolder env d root t folder).ops.countP isListOp
        = (files.filter (fun f => !env.openErr f.path)).length
    ∧ (∀ f ∈ files, env.openErr f.path = true →
        LogMsg.syncError f.name ∈ (syncFolder env d root t folder).logs)
    ∧ (∀ (i : Nat) (hi : i < files.length),
        (uploadToGoogleDrive env (syncFolderLoop env folder d (files.take i)).drive
            (files.get ⟨i, hi⟩).path folder).result ≠ .ok ()
        → LogMsg.syncError (files.get ⟨i, hi⟩).name
            ∈ (syncFolder env d root t folder).logs) := by
  obtain ⟨h1, h2, h3⟩ := syncFolderLoop_counts env folder files d
  simp only [syncFolder, h]
  exact ⟨trivial, h1, h3, fun i hi hfail => syncFolderLoop_logs_failed env folder files d i hi hfail⟩

/-- A tree with two files, `a.txt` and `b.txt`, under the sync root. -/
def treeC3 : FSNode := .dir "testsync" [.file "a.txt", .file "b.txt"]

/-- An environment in which `a.txt` fails to open and every remote create
of `b.txt` fails, so both per-file uploads fail. -/
def envC3 : Env :=
  ⟨fun _ => false,
   fun p => p = ["C:", "testsync", "a.txt"],
   fun _ => false,
   fun n => n = "b.txt",
   fun _ => false⟩

/-- Witness for C3 at a concrete input: with both files failing (one at
`os.Open`, one at `Files.Create`), the listing still succeeds, the batch
still visits the openable file, each failing upload is logged, and
`syncFolder` still returns `nil`. -/
theorem syncFolder_continues_on_errors_witness :
    (listLocalFiles envC3 ["C:", "testsync"] treeC3
        = .ok [⟨["a.txt"], ["C:", "testsync", "a.txt"]⟩, ⟨["b.txt"], ["C:", "testsync", "b.txt"]⟩])
    ∧ ((syncFolder envC3 ⟨[], 0⟩ ["C:", "testsync"] treeC3 "folder_identifier").result = .ok ()
      ∧ (syncFolder envC3 ⟨[], 0⟩ ["C:", "testsync"] treeC3 "folder_identifier").ops.countP isListOp
          = (([⟨["a.txt"], ["C:", "testsync", "a.txt"]⟩,
              (⟨["b.txt"], ["C:", "testsync", "b.txt"]⟩ : LocalFile)]).filter
                (fun f => !envC3.openErr f.path)).length
      ∧ (∀ f ∈ [⟨["a.txt"], ["C:", "testsync", "a.txt"]⟩,
              (⟨["b.txt"], ["C:", "testsync", "b.txt"]⟩ : LocalFile)],
            envC3.openErr f.path = true →
            LogMsg.syncError f.name ∈ (syncFolder envC3 ⟨[], 0⟩ ["C:", "testsync"] treeC3 "folder_identifier").logs)
      ∧ (∀ (i : Nat)
            (hi : i < ([⟨["a.txt"], ["C:", "testsync", "a.txt"]⟩,
              (⟨["b.txt"], ["C:", "testsync", "b.txt"]⟩ : LocalFile)]).length),
          (uploadToGoogleDrive envC3
              (syncFolderLoop envC3 "folder_identifier" ⟨[], 0⟩
                (([⟨["a.txt"], ["C:", "testsync", "a.txt"]⟩,
                  (⟨["b.txt"], ["C:", "testsync", "b.txt"]⟩ : LocalFile)]).take i)).drive
              (([⟨["a.txt"], ["C:", "testsync", "a.txt"]⟩,
                (⟨["b.txt"], ["C:", "testsync", "b.txt"]⟩ : LocalFile)]).get ⟨i, hi⟩).path
              "folder_identifier").result ≠ .ok ()
          → LogMsg.syncError
                (([⟨["a.txt"], ["C:", "testsync", "a.txt"]⟩,
                  (⟨["b.txt"], ["C:", "testsync", "b.txt"]⟩ : LocalFile)]).get ⟨i, hi⟩).name
              ∈ (syncFolder envC3 ⟨[], 0⟩ ["C:", "testsync"] treeC3 "folder_identifier").logs)) :=
  ⟨rfl,
    syncFolder_continues_on_errors envC3 ⟨[], 0⟩ ["C:", "testsync"] treeC3 "folder_identifier"
      _ rfl⟩

/-! ## C7: the remote listing is per file, not per run -/

/-- A tree with two files under the sync root, for the C7 counterexample. -/
def treeC7 : FSNode := .dir "testsync" [.file "a.txt", .file "b.txt"]

/-- C7 counterexample: a failure-free run over two local files issues the
remote `Files.List` operation twice — once per local file — not a single
time for the whole run. -/
theorem remote_list_once_per_run_counterexample :
    (syncFolder cleanEnv ⟨[], 0⟩ ["C:", "testsync"] treeC7 "folder_identifier").ops.countP isListOp = 2
    ∧ (syncFolder cleanEnv ⟨[], 0⟩ ["C:", "testsync"] treeC7 "folder_identifier").ops.countP isListOp ≠ 1 := by
  decide

/-- C7 amended: the remote `Files.List` operation is invoked once per
local file whose open succeeds — `getDriveFileID` runs a separate remote
query for each file — and each file's create-vs-update decision is made
against the response to its own query. -/
theorem remote_list_once_per_local_file (env : Env) (d : Drive) (root : Path) (t : FSNode)
    (folder : String) (files : List LocalFile)
    (h : listLocalFiles env root t = .ok files) :
    (syncFolder env d root t folder).ops.countP isListOp
      = (files.filter (fun f => !env.openErr f.path)).length := by
  have hc := (syncFolderLoop_counts env folder files d).1
  simp only [syncFolder, h]
  exact hc

/-- Witness for the amended C7 at a concrete input: the failure-free
two-file run issues exactly one list call per file. -/
theorem remote_list_once_per_local_file_witness :
    (listLocalFiles cleanEnv ["C:", "testsync"] treeC7
        = .ok [⟨["a.txt"], ["C:", "testsync", "a.txt"]⟩, ⟨["b.txt"], ["C:", "testsync", "b.txt"]⟩])
    ∧ (syncFolder cleanEnv ⟨[], 0⟩ ["C:", "testsync"] treeC7 "folder_identifier").ops.countP isListOp
        = (([⟨["a.txt"], ["C:", "testsync", "a.txt"]⟩,
            (⟨["b.txt"], ["C:", "testsync", "b.txt"]⟩ : LocalFile)]).filter
              (fun f => !cleanEnv.openErr f.path)).length :=
  ⟨rfl,
    remote_list_once_per_local_file cleanEnv ⟨[], 0⟩ ["C:", "testsync"] treeC7 "folder_identifier"
      _ rfl⟩

/-! ## C9: every upload goroutine finishes before `Sync complete.` -/

/-- The invariant of the WaitGroup protocol: the counter equals the
number of launched-but-unfinished goroutines, at most `n` goroutines are
ever launched, and the final print implies a zero counter with the launch
loop complete. -/
def CInv (n : Nat) (s : CState) : Prop :=
  s.counter = s.done.count false
  ∧ s.done.length ≤ n
  ∧ (s.printed = true → s.done.length = n ∧ s.counter = 0)

/-- Setting a `false` entry of a boolean list to `true` lowers the count
of `false` entries by exactly one. -/
theorem count_false_set (l : List Bool) (i : Nat) (h : l[i]? = some false) :
    (l.set i true).count false + 1 = l.count false := by
  induction l generalizing i with
  | nil => simp at h
  | cons b bs ih =>
    cases i with
    | zero =>
      simp at h
      subst h
      simp [List.set, List.count_cons]
    | succ j =>
      simp at h
      have := ih j h
      simp [List.set, List.count_cons]
      omega

/-- Every step of the protocol preserves the invariant. -/
theorem CInv_preserved {n : Nat} {s s2 : CState} (hs : CInv n s) (hstep : CStep n s s2) :
    CInv n s2 := by
  obtain ⟨hc, hlen, hpr⟩ := hs
  cases hstep with
  | launch h =>
    refine ⟨by simp [hc, List.count_append], by simpa using h, ?_⟩
    intro hp
    exact absurd (hpr hp).1 (Nat.ne_of_lt h)
  | finish i h =>
    have hcnt := count_false_set s.done i h
    refine ⟨?_, by simpa using hlen, ?_⟩
    · show s.counter - 1 = (s.done.set i true).count false
      omega
    · intro hp
      obtain ⟨h1, h2⟩ := hpr hp
      rw [h2] at hc
      exact absurd hcnt (by omega)
  | print hl hcz => exact ⟨hc, hlen, fun _ => ⟨hl, hcz⟩⟩

/-- The invariant holds along every run of the protocol. -/
theorem CInv_reachable {n : Nat} {s : CState}
    (h : Relation.ReflTransGen (CStep n) initCState s) : CInv n s := by
  induction h with
  | refl => exact ⟨rfl, Nat.zero_le n, by simp [initCState]⟩
  | tail _ hstep ih => exact CInv_preserved ih hstep

/-- C9: in every schedule of `syncFolder`'s goroutine fan-out, once
`Sync complete.` has been printed, all `n` per-file upload goroutines have
been launched and every one of them has finished. -/
theorem print_after_all_goroutines_done (n : Nat) (s : CState)
    (hreach : Relation.ReflTransGen (CStep n) initCState s)
    (hp : s.printed = true) :
    s.done.length = n ∧ ∀ b ∈ s.done, b = true := by
  obtain ⟨hc, _, hpr⟩ := CInv_reachable hreach
  obtain ⟨h1, h2⟩ := hpr hp
  refine ⟨h1, ?_⟩
  rw [h2] at hc
  intro b hb
  cases b with
  | true => rfl
  | false => exact absurd (List.count_pos_iff.mpr hb) (by omega)

/-- Witness for C9: a complete concrete schedule of a one-file run —
launch, task completion, then the print — reaches a printed state in
which the goroutine has indeed finished. -/
theorem print_after_all_goroutines_done_witness :
    (⟨[true], 0, true⟩ : CState).printed = true
    ∧ ((⟨[true], 0, true⟩ : CState).done.length = 1
      ∧ ∀ b ∈ (⟨[true], 0, true⟩ : CState).done, b = true) := by
  have step1 : CStep 1 initCState ⟨[false], 1, false⟩ := by
    have := CStep.launch (n := 1) initCState (by simp [initCState])
    simpa [initCState] using this
  have step2 : CStep 1 ⟨[false], 1, false⟩ ⟨[true], 0, false⟩ := by
    have := CStep.finish (n := 1) ⟨[false], 1, false⟩ 0 (by simp)
    simpa using this
  have step3 : CStep 1 ⟨[true], 0, false⟩ ⟨[true], 0, true⟩ := by
    have := CStep.print (n := 1) ⟨[true], 0, false⟩ (by simp) rfl
    simpa using this
  have hreach : Relation.ReflTransGen (CStep 1) initCState ⟨[true], 0, true⟩ :=
    Relation.ReflTransGen.tail
      (Relation.ReflTransGen.tail (Relation.ReflTransGen.tail Relation.ReflTransGen.refl step1)
        step2) step3
  exact ⟨rfl, print_after_all_goroutines_done 1 ⟨[true], 0, true⟩ hreach rfl⟩

/-! ## C4: fatal setup errors versus a completed run -/

/-- The fatal setup conditions of a run, in program order: missing
credentials, token-exchange failure after an unreadable token file,
Drive-service construction failure, and a failed top-level walk. -/
def fatalReason (w : World) : Option FatalMsg :=
  if w.envVars "CLIENT_ID" = "" ∨ w.envVars "CLIENT_SECRET" = "" then some .missingCreds
  else if readOk w.tokenContent = false ∧ w.webToken = none then some .exchangeFailed
  else if w.serviceOk = false then some .serviceFailed
  else
    match listLocalFiles w.env localFolderPath w.tree with
    | .error _ => some .syncFailed
    | .ok _ => none

/-- C4 amended: the run exits nonzero exactly on a fatal setup error, in
which case no remote sync operation has been issued; otherwise it runs to
completion, printing `Sync complete.` and one per-file upload or update
line for each listed file whose local open succeeds. -/
theorem main_fatal_or_complete (w : World) :
    ((mainRun w).exit = match fatalReason w with
        | some m => .fatal m
        | none => .ok)
    ∧ (fatalReason w ≠ none → (mainRun w).ops = [])
    ∧ (fatalReason w = none →
        PrintMsg.syncComplete ∈ (mainRun w).prints
        ∧ ∀ files, listLocalFiles w.env localFolderPath w.tree = .ok files →
            (mainRun w).prints.countP isUpLine
              = (files.filter (fun f => !w.env.openErr f.path)).length) := by
  by_cases hcreds : w.envVars "CLIENT_ID" = "" ∨ w.envVars "CLIENT_SECRET" = ""
  · simp [mainRun, fatalReason, hcreds]
  · cases htok : tokenFromFile w.tokenContent with
    | ok tok =>
      have hro : readOk w.tokenContent = true := by simp [readOk, htok]
      have hgc : getClient w = ⟨[.readToken], [], some tok, w.tokenContent⟩ := by
        simp [getClient, htok]
      cases hsvc : w.serviceOk with
      | false => simp [mainRun, fatalReason, hcreds, hgc, hro, hsvc]
      | true =>
        cases hl : listLocalFiles w.env localFolderPath w.tree with
        | error e =>
          simp [mainRun, fatalReason, hcreds, hgc, hro, hsvc, syncFolder, hl]
        | ok files =>
          obtain ⟨hc1, hc2, hc3⟩ := syncFolderLoop_counts w.env gDriveFolderID files w.drive
          simp [mainRun, fatalReason, hcreds, hgc, hro, hsvc, syncFolder, hl,
            List.countP_append, isUpLine, hc2]
    | error e =>
      have hro : readOk w.tokenContent = false := by simp [readOk, htok]
      cases hweb : w.webToken with
      | none =>
        have hgc : getClient w = ⟨[.readToken], [.authPrompt], none, w.tokenContent⟩ := by
          simp [getClient, htok, hweb]
        simp [mainRun, fatalReason, hcreds, hgc, hro, hweb]
      | some tok =>
        have hgc : getClient w
            = ⟨[.readToken, .writeToken (encodeToken tok)], [.authPrompt], some tok, saveToken tok⟩ := by
          simp [getClient, htok, hweb]
        cases hsvc : w.serviceOk with
        | false => simp [mainRun, fatalReason, hcreds, hgc, hro, hweb, hsvc]
        | true =>
          cases hl : listLocalFiles w.env localFolderPath w.tree with
          | error e2 =>
            simp [mainRun, fatalReason, hcreds, hgc, hro, hweb, hsvc, syncFolder, hl]
          | ok files =>
            obtain ⟨hc1, hc2, hc3⟩ := syncFolderLoop_counts w.env gDriveFolderID files w.drive
            simp [mainRun, fatalReason, hcreds, hgc, hro, hweb, hsvc, syncFolder, hl,
              List.countP_append, isUpLine, hc2]

/-- A world with sound credentials, token file, service and walk, whose
single local file `a.txt` fails to open. -/
def worldC4 : World :=
  { envVars := fun v => if v = "CLIENT_ID" then "id" else if v = "CLIENT_SECRET" then "secret" else ""
    tokenContent := some (Json.obj [])
    webToken := none
    serviceOk := true
    drive := ⟨[], 0⟩
    tree := .dir "testsync" [.file "a.txt"]
    env := ⟨fun _ => false, fun _ => true, fun _ => false, fun _ => false, fun _ => false⟩ }

/-- C4 counterexample: a run with no fatal setup error still exits
successfully while printing no per-file upload or update line at all, even
though the listing found one file — the file's `os.Open` failed, so its
line was never printed. -/
theorem main_prints_per_file_counterexample :
    (mainRun worldC4).exit = .ok
    ∧ listLocalFiles worldC4.env localFolderPath worldC4.tree
        = .ok [⟨["a.txt"], ["C:", "testsync", "a.txt"]⟩]
    ∧ (mainRun worldC4).prints.countP isUpLine = 0 :=
  ⟨rfl, rfl, rfl⟩

/-- A failure-free world with two local files, for the C4 witness. -/
def worldC4ok : World :=
  { envVars := fun v => if v = "CLIENT_ID" then "id" else if v = "CLIENT_SECRET" then "secret" else ""
    tokenContent := some (Json.obj [])
    webToken := none
    serviceOk := true
    drive := ⟨[], 0⟩
    tree := .dir "testsync" [.file "a.txt", .file "b.txt"]
    env := cleanEnv }

/-- Witness for the amended C4 at a concrete failure-free input. -/
theorem main_fatal_or_complete_witness :
    ((mainRun worldC4ok).exit = match fatalReason worldC4ok with
        | some m => .fatal m
        | none => .ok)
    ∧ (fatalReason worldC4ok ≠ none → (mainRun worldC4ok).ops = [])
    ∧ (fatalReason worldC4ok = none →
        PrintMsg.syncComplete ∈ (mainRun worldC4ok).prints
        ∧ ∀ files, listLocalFiles worldC4ok.env localFolderPath worldC4ok.tree = .ok files →
            (mainRun worldC4ok).prints.countP isUpLine
              = (files.filter (fun f => !worldC4ok.env.openErr f.path)).length) :=
  main_fatal_or_complete worldC4ok

/-! ## C6: the token file is read once, rewritten only after a failed read -/

/-- When the credentials are present, `main`'s token file operations and
final token file content are exactly those of `getClient`: nothing after
client construction touches the token file. -/
theorem mainRun_client_parts (w : World)
    (h : ¬(w.envVars "CLIENT_ID" = "" ∨ w.envVars "CLIENT_SECRET" = "")) :
    (mainRun w).fileOps = (getClient w).fileOps
    ∧ (mainRun w).tokenFile = (getClient w).newContent := by
  unfold mainRun
  rw [if_neg h]
  cases htc : (getClient w).token with
  | none => simp [htc]
  | some tok =>
    cases hsvc : w.serviceOk with
    | false => simp [htc, hsvc]
    | true =>
      cases hres : (syncFolder w.env w.drive localFolderPath w.tree gDriveFolderID).result with
      | error e => simp [htc, hsvc, hres]
      | ok u => simp [htc, hsvc, hres]

/-- C6: when the credentials are present (so the run reaches the client
setup), the token file is read exactly once for the whole run; it is
written if and only if that startup read or unmarshal failed and the
interactive flow produced a token; and when the startup read succeeded the
token file's content is unchanged at the end of the run, with no write
ever issued. -/
theorem token_file_read_once (w : World)
    (h1 : w.envVars "CLIENT_ID" ≠ "") (h2 : w.envVars "CLIENT_SECRET" ≠ "") :
    (mainRun w).fileOps.countP isReadOp = 1
    ∧ ((mainRun w).fileOps.countP isWriteOp ≠ 0
        ↔ (readOk w.tokenContent = false ∧ w.webToken ≠ none))
    ∧ (readOk w.tokenContent = true →
        (mainRun w).tokenFile = w.tokenContent
        ∧ (mainRun w).fileOps.countP isWriteOp = 0) := by
  obtain ⟨hops, htokf⟩ := mainRun_client_parts w (by push_neg; exact ⟨h1, h2⟩)
  cases htok : tokenFromFile w.tokenContent with
  | ok tok =>
    have hro : readOk w.tokenContent = true := by simp [readOk, htok]
    have hgc : getClient w = ⟨[.readToken], [], some tok, w.tokenContent⟩ := by
      simp [getClient, htok]
    rw [hops, htokf, hgc]
    refine ⟨by simp [isReadOp], ?_, ?_⟩
    · simp [isWriteOp, hro]
    · intro _
      exact ⟨rfl, by simp [isWriteOp]⟩
  | error e =>
    have hro : readOk w.tokenContent = false := by simp [readOk, htok]
    cases hweb : w.webToken with
    | none =>
      have hgc : getClient w = ⟨[.readToken], [.authPrompt], none, w.tokenContent⟩ := by
        simp [getClient, htok, hweb]
      rw [hops, htokf, hgc]
      refine ⟨by simp [isReadOp], ?_, ?_⟩
      · simp [isWriteOp, hro, hweb]
      · intro hro2
        rw [hro] at hro2
        cases hro2
    | some tok =>
      have hgc : getClient w
          = ⟨[.readToken, .writeToken (encodeToken tok)], [.authPrompt], some tok, saveToken tok⟩ := by
        simp [getClient, htok, hweb]
      rw [hops, htokf, hgc]
      refine ⟨by simp [isReadOp, isWriteOp], ?_, ?_⟩
      · simp [isWriteOp, hro, hweb]
      · intro hro2
        rw [hro] at hro2
        cases hro2

/-- A world whose token file holds a readable (empty-object) token, for
the C6 witness. -/
def worldC6 : World :=
  { envVars := fun v => if v = "CLIENT_ID" then "id" else if v = "CLIENT_SECRET" then "secret" else ""
    tokenContent := some (Json.obj [])
    webToken := none
    serviceOk := true
    drive := ⟨[], 0⟩
    tree := .dir "testsync" [.file "a.txt"]
    env := cleanEnv }

/-- Witness for C6 at a concrete input whose startup token read
succeeds. -/
theorem token_file_read_once_witness :
    (worldC6.envVars "CLIENT_ID" ≠ "" ∧ worldC6.envVars "CLIENT_SECRET" ≠ "")
    ∧ ((mainRun worldC6).fileOps.countP isReadOp = 1
      ∧ ((mainRun worldC6).fileOps.countP isWriteOp ≠ 0
          ↔ (readOk worldC6.tokenContent = false ∧ worldC6.webToken ≠ none))
      ∧ (readOk worldC6.tokenContent = true →
          (mainRun worldC6).tokenFile = worldC6.tokenContent
          ∧ (mainRun worldC6).fileOps.countP isWriteOp = 0)) :=
  ⟨⟨by decide, by decide⟩, token_file_read_once worldC6 (by decide) (by decide)⟩

/-! ## C8: the folders are compile-time constants, not environment input -/

/-- A world whose environment claims a sync path `/data/a` and a remote
folder `folderA`. -/
def worldC8a : World :=
  { envVars := fun v => if v = "CLIENT_ID" then "id" else if v = "CLIENT_SECRET" then "secret"
      else if v = "SYNC_PATH" then "/data/a" else if v = "GDRIVE_FOLDER_ID" then "folderA" else ""
    tokenContent := some (Json.obj [])
    webToken := none
    serviceOk := true
    drive := ⟨[], 0⟩
    tree := .dir "testsync" [.file "a.txt"]
    env := cleanEnv }

/-- The same world with a different sync path `/data/b` and remote folder
`folderB` in the environment. -/
def worldC8b : World :=
  { worldC8a with
    envVars := fun v => if v = "CLIENT_ID" then "id" else if v = "CLIENT_SECRET" then "secret"
      else if v = "SYNC_PATH" then "/data/b" else if v = "GDRIVE_FOLDER_ID" then "folderB" else "" }

/-- C8 counterexample: two runs that differ in the sync-path and
destination-folder environment variables behave identically — and both
target the hard-coded `folder_identifier`, not the folder the environment
names — so changing those variables does not change which local folder is
walked or which remote folder is targeted. -/
theorem env_vars_select_folders_counterexample :
    worldC8a.envVars "SYNC_PATH" ≠ worldC8b.envVars "SYNC_PATH"
    ∧ worldC8a.envVars "GDRIVE_FOLDER_ID" ≠ worldC8b.envVars "GDRIVE_FOLDER_ID"
    ∧ mainRun worldC8a = mainRun worldC8b
    ∧ DriveOp.create "a.txt" gDriveFolderID ∈ (mainRun worldC8a).ops :=
  ⟨by decide, by decide, rfl, by decide⟩

/-- C8 amended: only `CLIENT_ID` and `CLIENT_SECRET` are read from the
environment; the sync source path and the remote destination folder id
are the compile-time constants `localFolderPath` and `gDriveFolderID`, so
any two environments agreeing on those two variables produce identical
runs. -/
theorem only_credentials_read_from_env (w : World) (v : String → String)
    (h1 : v "CLIENT_ID" = w.envVars "CLIENT_ID")
    (h2 : v "CLIENT_SECRET" = w.envVars "CLIENT_SECRET") :
    mainRun { w with envVars := v } = mainRun w := by
  simp only [mainRun]
  rw [h1, h2]
  rfl

/-- Witness for the amended C8 at a concrete input. -/
theorem only_credentials_read_from_env_witness :
    ((fun v => if v = "CLIENT_ID" then "id" else if v = "CLIENT_SECRET" then "secret" else "zzz") "CLIENT_ID"
        = worldC8a.envVars "CLIENT_ID")
    ∧ ((fun v => if v = "CLIENT_ID" then "id" else if v = "CLIENT_SECRET" then "secret" else "zzz") "CLIENT_SECRET"
        = worldC8a.envVars "CLIENT_SECRET")
    ∧ mainRun { worldC8a with
        envVars := fun v => if v = "CLIENT_ID" then "id" else if v = "CLIENT_SECRET" then "secret" else "zzz" }
      = mainRun worldC8a :=
  ⟨rfl, rfl,
    only_credentials_read_from_env worldC8a
      (fun v => if v = "CLIENT_ID" then "id" else if v = "CLIENT_SECRET" then "secret" else "zzz")
      rfl rfl⟩

/-! ## C10: matching is by base name only -/

/-- Drive-assigned ids are never the empty string, so the code's `""`
sentinel cannot misfire on them. -/
theorem freshId_ne_empty (n : Nat) : freshId n ≠ "" := by
  intro h
  have hlen : (freshId n).length = 0 := by rw [h]; rfl
  rw [freshId, String.length_append] at hlen
  simp at hlen
  exact absurd hlen.1 (by decide)

/-- C10: the remote match key is `filepath.Base` of the local path, not
the path relative to the sync root.  For two local files from different
subdirectories sharing a base name `b`, processed one after the other
against a folder holding no `b`: the first upload creates a remote `b` and
the second's query finds that created object, so the second upload updates
the object the first one created, under the same single name `b`. -/
theorem basename_collision_second_updates_first
    (env : Env) (d : Drive) (folder : String) (f1 f2 : LocalFile) (b : String)
    (hb1 : base f1.path = b) (hb2 : base f2.path = b)
    (hopen1 : env.openErr f1.path = false) (hopen2 : env.openErr f2.path = false)
    (hlist : env.listErr b = false)
    (hcreate : env.createErr b = false)
    (hupd : env.updateErr (freshId d.nextId) = false)
    (hnomatch : d.files.filter (matchesQuery b folder) = []) :
    (syncFolderLoop env folder d [f1, f2]).ops
      = [.listFiles b folder, .create b folder, .listFiles b folder, .update (freshId d.nextId)] := by
  have h1 : uploadToGoogleDrive env d f1.path folder
      = ⟨⟨d.files ++ [⟨freshId d.nextId, b, [folder], false⟩], d.nextId + 1⟩,
         [.listFiles b folder, .create b folder], [.uploading b], [], .ok ()⟩ := by
    simp [uploadToGoogleDrive, getDriveFileID, hopen1, hb1, hlist, hnomatch, hcreate]
  have h2 : uploadToGoogleDrive env
        ⟨d.files ++ [⟨freshId d.nextId, b, [folder], false⟩], d.nextId + 1⟩ f2.path folder
      = ⟨⟨d.files ++ [⟨freshId d.nextId, b, [folder], false⟩], d.nextId + 1⟩,
         [.listFiles b folder, .update (freshId d.nextId)], [.updating b], [], .ok ()⟩ := by
    simp [uploadToGoogleDrive, getDriveFileID, hopen2, hb2, hlist, List.filter_append,
      hnomatch, matchesQuery, freshId_ne_empty, hupd]
  simp [syncFolderLoop, h1, h2]

/-- Witness for C10 at a concrete input: `sub1/x.txt` and `sub2/x.txt`
against an empty remote folder. -/
theorem basename_collision_second_updates_first_witness :
    (base ["C:", "testsync", "sub1", "x.txt"] = "x.txt"
      ∧ base ["C:", "testsync", "sub2", "x.txt"] = "x.txt"
      ∧ cleanEnv.openErr ["C:", "testsync", "sub1", "x.txt"] = false
      ∧ cleanEnv.openErr ["C:", "testsync", "sub2", "x.txt"] = false
      ∧ cleanEnv.listErr "x.txt" = false
      ∧ cleanEnv.createErr "x.txt" = false
      ∧ cleanEnv.updateErr (freshId (0 : Nat)) = false
      ∧ (⟨[], 0⟩ : Drive).files.filter (matchesQuery "x.txt" "folder_identifier") = [])
    ∧ (syncFolderLoop cleanEnv "folder_identifier" ⟨[], 0⟩
        [⟨["sub1", "x.txt"], ["C:", "testsync", "sub1", "x.txt"]⟩,
         ⟨["sub2", "x.txt"], ["C:", "testsync", "sub2", "x.txt"]⟩]).ops
      = [.listFiles "x.txt" "folder_identifier", .create "x.txt" "folder_identifier",
         .listFiles "x.txt" "folder_identifier", .update (freshId (0 : Nat))] :=
  ⟨⟨rfl, rfl, rfl, rfl, rfl, rfl, rfl, rfl⟩,
    basename_collision_second_updates_first cleanEnv ⟨[], 0⟩ "folder_identifier"
      ⟨["sub1", "x.txt"], ["C:", "testsync", "sub1", "x.txt"]⟩
      ⟨["sub2", "x.txt"], ["C:", "testsync", "sub2", "x.txt"]⟩ "x.txt"
      rfl rfl rfl rfl rfl rfl rfl rfl⟩

/-! ## C2: the walk lists every regular file exactly once -/

/-- Destructuring a successful `Except` bind. -/
theorem except_bind_ok {α β : Type} {x : Except String α} {f : α → Except String β} {b : β}
    (h : x >>= f = .ok b) : ∃ a, x = .ok a ∧ f a = .ok b := by
  cases x with
  | error e =>
    have h2 : (Except.error e : Except String β) = .ok b := h
    simp at h2
  | ok a => exact ⟨a, rfl, h⟩

mutual

/-- Every entry a successful walk of `t` produces is a regular file of
`t`, its name extending the relative prefix of the walk. -/
theorem walkNode_shape (env : Env) (root : Path) (rel : Path) (t : FSNode) (l : List LocalFile)
    (h : walkNode env root rel t = .ok l) :
    ∀ e ∈ l, ∃ q, e.name = rel ++ q ∧ isRegFile t q = true := by
  cases t with
  | file n =>
    rw [walkNode] at h
    by_cases hs : env.statErr (root ++ rel)
    · rw [if_pos hs] at h
      simp at h
    · rw [if_neg hs] at h
      injection h with h2
      subst h2
      intro e he
      simp at he
      subst he
      exact ⟨[], by simp, by simp [isRegFile]⟩
  | dir n cs =>
    rw [walkNode] at h
    by_cases hs : env.statErr (root ++ rel)
    · rw [if_pos hs] at h
      simp at h
    · rw [if_neg hs] at h
      intro e he
      obtain ⟨nm, q, hname, hreg⟩ := walkChildren_shape env root rel cs l h e he
      exact ⟨nm :: q, hname, by simp [isRegFile, hreg]⟩

/-- Every entry a successful walk of the children `cs` produces is a
regular file of one of the children. -/
theorem walkChildren_shape (env : Env) (root : Path) (rel : Path) (cs : List FSNode)
    (l : List LocalFile) (h : walkChildren env root rel cs = .ok l) :
    ∀ e ∈ l, ∃ nm q, e.name = rel ++ nm :: q ∧ isRegFileIn cs nm q = true := by
  cases cs with
  | nil =>
    rw [walkChildren] at h
    injection h with h2
    subst h2
    intro e he
    cases he
  | cons c cs2 =>
    rw [walkChildren] at h
    obtain ⟨l1, hn, hrest⟩ := except_bind_ok h
    obtain ⟨l2, hcs, hpure⟩ := except_bind_ok hrest
    have hl : (Except.ok (l1 ++ l2) : Except String (List LocalFile)) = .ok l := hpure
    injection hl with hl2
    subst hl2
    intro e he
    rcases List.mem_append.mp he with he1 | he2
    · obtain ⟨q, hname, hreg⟩ := walkNode_shape env root (rel ++ [c.name]) c l1 hn e he1
      refine ⟨c.name, q, by simpa using hname, ?_⟩
      simp [isRegFileIn, hreg]
    · obtain ⟨nm, q, hname, hreg⟩ := walkChildren_shape env root rel cs2 l2 hcs e he2
      exact ⟨nm, q, hname, by simp [isRegFileIn, hreg]⟩

end

/-- A regular-file witness below a list of children names one of the
children. -/
theorem isRegFileIn_mem_names (cs : List FSNode) (nm : String) (q : Path)
    (h : isRegFileIn cs nm q = true) : nm ∈ cs.map FSNode.name := by
  induction cs with
  | nil => simp [isRegFileIn] at h
  | cons c cs2 ih =>
    rw [isRegFileIn] at h
    simp at h
    rcases h with ⟨h1, _⟩ | h2
    · simp [h1]
    · simp [List.mem_cons, ih h2]

mutual

/-- Counting: a successful error-free walk of a well-formed node yields an
entry named `rel ++ p` exactly once when `p` is one of its regular files,
and never otherwise. -/
theorem walkNode_count (env : Env) (root : Path) (rel : Path) (t : FSNode) (l : List LocalFile)
    (hwf : nodeWF t = true) (h : walkNode env root rel t = .ok l) (p : Path) :
    (l.map LocalFile.name).count (rel ++ p) = if isRegFile t p = true then 1 else 0 := by
  cases t with
  | file n =>
    rw [walkNode] at h
    by_cases hs : env.statErr (root ++ rel)
    · rw [if_pos hs] at h
      simp at h
    · rw [if_neg hs] at h
      injection h with h2
      subst h2
      cases p with
      | nil => simp [isRegFile]
      | cons x xs =>
        have hne : rel ≠ rel ++ x :: xs := by
          intro hq
          have hlen := congrArg List.length hq
          simp at hlen
        simp [isRegFile, List.count_cons, hne]
  | dir n cs =>
    rw [nodeWF, Bool.and_eq_true] at hwf
    rw [walkNode] at h
    by_cases hs : env.statErr (root ++ rel)
    · rw [if_pos hs] at h
      simp at h
    · rw [if_neg hs] at h
      cases p with
      | nil =>
        have hz : (l.map LocalFile.name).count rel = 0 := by
          rw [List.count_eq_zero]
          intro hmem
          obtain ⟨e, hel, hename⟩ := List.mem_map.mp hmem
          obtain ⟨nm, q, hq, _⟩ := walkChildren_shape env root rel cs l h e hel
          rw [hename] at hq
          have hlen := congrArg List.length hq
          simp at hlen
        simp [isRegFile, hz]
      | cons x xs =>
        have := walkChildren_count env root rel cs l hwf.1 hwf.2 h x xs
        simpa [isRegFile] using this

/-- Counting over a list of children with pairwise distinct names. -/
theorem walkChildren_count (env : Env) (root : Path) (rel : Path) (cs : List FSNode)
    (l : List LocalFile) (hnd : namesNodup cs = true) (hwf : childrenWF cs = true)
    (h : walkChildren env root rel cs = .ok l) (nm : String) (p : Path) :
    (l.map LocalFile.name).count (rel ++ nm :: p)
      = if isRegFileIn cs nm p = true then 1 else 0 := by
  cases cs with
  | nil =>
    rw [walkChildren] at h
    injection h with h2
    subst h2
    simp [isRegFileIn]
  | cons c cs2 =>
    rw [namesNodup, Bool.and_eq_true] at hnd
    rw [childrenWF, Bool.and_eq_true] at hwf
    obtain ⟨hnotin, hnd2⟩ := hnd
    obtain ⟨hwfc, hwf2⟩ := hwf
    have hnotin2 : c.name ∉ cs2.map FSNode.name := by simpa using hnotin
    rw [walkChildren] at h
    obtain ⟨l1, hn, hrest⟩ := except_bind_ok h
    obtain ⟨l2, hcs, hpure⟩ := except_bind_ok hrest
    have hl : (Except.ok (l1 ++ l2) : Except String (List LocalFile)) = .ok l := hpure
    injection hl with hl2
    subst hl2
    rw [List.map_append, List.count_append]
    by_cases hcn : c.name = nm
    · subst hcn
      have hkey : rel ++ c.name :: p = (rel ++ [c.name]) ++ p := by simp
      have hreg2 : isRegFileIn cs2 c.name p = false := by
        by_cases hreg : isRegFileIn cs2 c.name p = true
        · exact absurd (isRegFileIn_mem_names cs2 c.name p hreg) hnotin2
        · simpa using hreg
      have h1 : (l1.map LocalFile.name).count ((rel ++ [c.name]) ++ p)
          = if isRegFile c p = true then 1 else 0 :=
        walkNode_count env root (rel ++ [c.name]) c l1 hwfc hn p
      have h2 : (l2.map LocalFile.name).count (rel ++ c.name :: p) = 0 := by
        rw [walkChildren_count env root rel cs2 l2 hnd2 hwf2 hcs c.name p]
        simp [hreg2]
      rw [hkey] at h2
      rw [hkey, h1, h2]
      simp [isRegFileIn, hreg2]
    · have h1 : (l1.map LocalFile.name).count (rel ++ nm :: p) = 0 := by
        rw [List.count_eq_zero]
        intro hmem
        obtain ⟨e, hel, hename⟩ := List.mem_map.mp hmem
        obtain ⟨q, hq, _⟩ := walkNode_shape env root (rel ++ [c.name]) c l1 hn e hel
        rw [hename] at hq
        have hq2 : rel ++ nm :: p = rel ++ c.name :: q := by simpa using hq
        have hq3 := List.append_cancel_left hq2
        injection hq3 with h5 _
        exact hcn h5.symm
      have h2 : (l2.map LocalFile.name).count (rel ++ nm :: p)
          = if isRegFileIn cs2 nm p = true then 1 else 0 :=
        walkChildren_count env root rel cs2 l2 hnd2 hwf2 hcs nm p
      rw [h1, h2]
      simp [isRegFileIn, hcn]

end

/-- C2: when the walk encounters no filesystem error, `listLocalFiles`
lists every regular file under the sync root exactly once — each regular
file contributes exactly one entry of the per-file upload list — and
every listed entry is one of the tree's regular files. -/
theorem listLocalFiles_each_file_once (env : Env) (root : Path) (t : FSNode)
    (files : List LocalFile) (hwf : nodeWF t = true)
    (h : listLocalFiles env root t = .ok files) :
    (∀ p : Path, isRegFile t p = true → (files.map LocalFile.name).count p = 1)
    ∧ (∀ e ∈ files, isRegFile t e.name = true) := by
  constructor
  · intro p hp
    have hc := walkNode_count env root [] t files hwf h p
    simpa [hp] using hc
  · intro e he
    obtain ⟨q, hq, hreg⟩ := walkNode_shape env root [] t files h e he
    simp at hq
    rw [hq]
    exact hreg

/-- A well-formed tree holding `a.txt`, and `sub/a.txt` in a
subdirectory, for the C2 witness. -/
def treeC2 : FSNode := .dir "testsync" [.file "a.txt", .dir "sub" [.file "a.txt"]]

/-- Witness for C2 at a concrete input: the two same-named regular files
in different directories are each listed exactly once. -/
theorem listLocalFiles_each_file_once_witness :
    (nodeWF treeC2 = true
      ∧ listLocalFiles cleanEnv ["C:", "testsync"] treeC2
          = .ok [⟨["a.txt"], ["C:", "testsync", "a.txt"]⟩,
                 ⟨["sub", "a.txt"], ["C:", "testsync", "sub", "a.txt"]⟩])
    ∧ ((∀ p : Path, isRegFile treeC2 p = true →
          (([⟨["a.txt"], ["C:", "testsync", "a.txt"]⟩,
             (⟨["sub", "a.txt"], ["C:", "testsync", "sub", "a.txt"]⟩ : LocalFile)]).map LocalFile.name).count p = 1)
      ∧ (∀ e ∈ [⟨["a.txt"], ["C:", "testsync", "a.txt"]⟩,
             (⟨["sub", "a.txt"], ["C:", "testsync", "sub", "a.txt"]⟩ : LocalFile)],
          isRegFile treeC2 e.name = true)) :=
  ⟨⟨by decide, rfl⟩,
    listLocalFiles_each_file_once cleanEnv ["C:", "testsync"] treeC2
      [⟨["a.txt"], ["C:", "testsync", "a.txt"]⟩,
       ⟨["sub", "a.txt"], ["C:", "testsync", "sub", "a.txt"]⟩]
      (by decide) rfl⟩

end GDriveSync
